import Mathlib

/-!
# Super-resolution: image model chain, pixel indexing and display utilities

A shallow embedding of the parts of the super-resolution code base that the
checked properties talk about:

* `src/util/util.h`            : `GetPixelIndex`
* `src/util/visualization.cpp` : `GetResizeScale`, `DisplayWindowMouseCallback`,
                                 `DisplayImagesSideBySide`
* `src/super_resolution.cpp`   : the construction of the image model in `main`
* `src/image_model/motion_module.h` : the `DegradationOperator` interface

C++ `int` values are embedded as `Int`, `double` values as exact rationals.
-/

namespace SuperResolution

/-! ## Image sizes and the flat pixel index -/

/-- The two `int` fields of OpenCV's `cv::Size`. -/
structure Size where
  width : Int
  height : Int
deriving DecidableEq, Repr

/-- Modelled from the spec: the body of `util::GetPixelIndex`. Only its
declaration and doc comment are in `util.h` ("the index into a pixel array given
its channel (band), row, and column coordinates ... the standard channel-row-col
ordering"); the spec calls the storage a flat array indexed by
`(channel, row, col)`, channel-major. One full `height * width` plane is skipped
per channel, one full row of `width` pixels per row. The arithmetic is over
unbounded integers. -/
def GetPixelIndex (image_size : Size) (channel row col : Int) : Int :=
  channel * (image_size.width * image_size.height) + row * image_size.width + col

/-- The largest value of a 32-bit C++ `int`. -/
def INT_MAX : Int := 2147483647

/-! ## Display scale (visualization.cpp) -/

/-- Width of a displayed image after rescaling, `kDisplayWidthPixels`. -/
def kDisplayWidthPixels : Int := 1250

/-- Height of a displayed image after rescaling, `kDisplayHeightPixels`. -/
def kDisplayHeightPixels : Int := 850

/-- The function `GetResizeScale` of visualization.cpp, with the `double`
quotients taken over exact rationals. (A zero width or height divides by zero:
IEEE gives an infinity there, `ℚ` gives `0`; the function is only meaningful on
sizes with positive sides.) -/
def GetResizeScale (image_size : Size) : ℚ :=
  let scale_x : ℚ := (kDisplayWidthPixels : ℚ) / (image_size.width : ℚ)
  let scale_y : ℚ := (kDisplayHeightPixels : ℚ) / (image_size.height : ℚ)
  min scale_x scale_y

/-! ## The zoom window's mouse callback (visualization.cpp) -/

/-- OpenCV's mouse event code `CV_EVENT_LBUTTONDOWN` (highgui). -/
def CV_EVENT_LBUTTONDOWN : Int := 1

/-- OpenCV's mouse event code `CV_EVENT_RBUTTONDOWN` (highgui). -/
def CV_EVENT_RBUTTONDOWN : Int := 2

/-- OpenCV's mouse event code `CV_EVENT_LBUTTONUP` (highgui). -/
def CV_EVENT_LBUTTONUP : Int := 4

/-- OpenCV's mouse flag bit `CV_EVENT_FLAG_LBUTTON` (highgui): set in `flags`
while the left button is held down. -/
def CV_EVENT_FLAG_LBUTTON : Int := 1

/-- The fields of `cv::Rect`. -/
structure Rect where
  x : Int
  y : Int
  width : Int
  height : Int
deriving DecidableEq, Repr

/-- The mutable fields of `struct WindowInteractionStatus`, with the defaults of
the source. (Its two `const` members, the original image and the window name,
are never changed by the callback; what is shown in the window is recorded as
`WindowAction`s.) -/
structure WindowInteractionStatus where
  drag_start_x : Int := 0
  drag_start_y : Int := 0
  dragging : Bool := false
  is_zoomed_in : Bool := false
deriving DecidableEq, Repr

/-- What the callback shows in the window (its `cv::imshow` calls). -/
inductive WindowAction where
  /-- Shows `status->original_image`. -/
  | show_original
  /-- Shows the original image cropped to `selection` and resized by `scale`. -/
  | show_zoomed (selection : Rect) (scale : ℚ)
  /-- Shows the original image with a rectangle drawn between two corners. -/
  | show_selection (start_x start_y x_pos y_pos : Int)
deriving DecidableEq, Repr

/-- The function `DisplayWindowMouseCallback` of visualization.cpp: the four
consecutive `if` statements, each reading the status left by the previous one.
The result is the status after the call and the images shown during it. The
OpenCV calls themselves (crop, resize, rectangle, imshow) are recorded, not
interpreted. -/
def DisplayWindowMouseCallback (event x_pos y_pos flags : Int)
    (status : WindowInteractionStatus) :
    WindowInteractionStatus × List WindowAction :=
  -- If image is zoomed in and right button is pressed, zooms the image out.
  let s1 : WindowInteractionStatus × List WindowAction :=
    if event = CV_EVENT_RBUTTONDOWN ∧ status.is_zoomed_in = true then
      ({ status with is_zoomed_in := false }, [WindowAction.show_original])
    else (status, [])
  -- If left button is pressed and the image is not already zoomed in, start
  -- dragging.
  let s2 : WindowInteractionStatus × List WindowAction :=
    if event = CV_EVENT_LBUTTONDOWN ∧ s1.1.is_zoomed_in = false then
      ({ s1.1 with drag_start_x := x_pos, drag_start_y := y_pos,
                   dragging := true }, s1.2)
    else s1
  -- Dragging was interrupted if the status is set to dragging but the left
  -- button is no longer being pushed down: cancel the drag.
  let s3 : WindowInteractionStatus × List WindowAction :=
    if s2.1.dragging = true ∧ Int.land flags CV_EVENT_FLAG_LBUTTON = 0 then
      ({ s2.1 with dragging := false }, s2.2 ++ [WindowAction.show_original])
    else s2
  -- If left button is released during dragging, perform the zoom.
  if event = CV_EVENT_LBUTTONUP ∧ s3.1.dragging = true then
    let left_x := min x_pos s3.1.drag_start_x
    let top_y := min y_pos s3.1.drag_start_y
    let selection_width := |x_pos - s3.1.drag_start_x|
    let selection_height := |y_pos - s3.1.drag_start_y|
    let selection : Rect := ⟨left_x, top_y, selection_width, selection_height⟩
    let scale := GetResizeScale ⟨selection.width, selection.height⟩
    ({ s3.1 with is_zoomed_in := true, dragging := false },
      s3.2 ++ [WindowAction.show_zoomed selection scale])
  else if s3.1.dragging = true then
    -- If dragging, draw a rectangle to indicate the current selection.
    (s3.1, s3.2 ++ [WindowAction.show_selection
      s3.1.drag_start_x s3.1.drag_start_y x_pos y_pos])
  else s3

/-! ## Side-by-side display (visualization.cpp) -/

/-- OpenCV's matrix type code `CV_8UC1`. -/
def CV_8UC1 : Int := 0

/-- OpenCV's matrix type code `CV_8UC3`. -/
def CV_8UC3 : Int := 16

/-- What `DisplayImagesSideBySide` reads of an `ImageData` (the class itself is
declared in `image/image_data.h`): `GetImageSize()` and `GetNumChannels()`. -/
structure ImageData where
  image_size : Size
  num_channels : Int
deriving DecidableEq, Repr

/-- The calls `DisplayImagesSideBySide` makes after its initial check, in the
order it makes them. Images are named by their position in the list. -/
inductive StitchAction where
  /-- Reads `image.GetImageSize()` of the image at this position. -/
  | GetImageSize (position : Nat)
  /-- Reads `images[0].GetNumChannels()`. -/
  | GetNumChannels (position : Nat)
  /-- Allocates the canvas `cv::Mat stitched_images(height, width, image_type)`. -/
  | CreateCanvas (height width image_type : Int)
  /-- Copies the image at this position into a region of the canvas. -/
  | CopyTo (position : Nat) (region : Rect)
  /-- Calls `DisplayImage` on the stitched canvas. -/
  | DisplayImage (window_name : String) (rescale : Bool)
deriving DecidableEq, Repr

/-- The local variables of `DisplayImagesSideBySide` together with the calls
made so far. -/
structure StitchState where
  width : Int := 0
  height : Int := 0
  x_pos : Int := 0
  actions : List StitchAction := []
deriving DecidableEq, Repr

/-- The first loop of `DisplayImagesSideBySide`: adds up the widths and takes
the largest height. `position` is the position of the head of `images`. -/
def measureImages : List ImageData → Nat → StitchState → StitchState
  | [], _, s => s
  | image :: rest, position, s =>
    measureImages rest (position + 1)
      { s with
        width := s.width + image.image_size.width
        height := max s.height image.image_size.height
        actions := s.actions ++ [StitchAction.GetImageSize position] }

/-- The second loop of `DisplayImagesSideBySide`: copies every image into its
region of the canvas, left to right. -/
def placeImages : List ImageData → Nat → StitchState → StitchState
  | [], _, s => s
  | image :: rest, position, s =>
    placeImages rest (position + 1)
      { s with
        x_pos := s.x_pos + image.image_size.width
        actions := s.actions ++
          [StitchAction.GetImageSize position,
           StitchAction.CopyTo position
             ⟨s.x_pos, 0, image.image_size.width, image.image_size.height⟩] }

/-- How a run of `DisplayImagesSideBySide` ends: the calls it made, and the
message of the failed `CHECK` if it was stopped by one. -/
structure StitchOutcome where
  actions : List StitchAction
  check_failure : Option String
deriving DecidableEq, Repr

/-- The function `DisplayImagesSideBySide` of visualization.cpp. A failed glog
`CHECK_GT` ends the run at once with its message. -/
def DisplayImagesSideBySide (images : List ImageData) (window_name : String)
    (rescale : Bool) : StitchOutcome :=
  if h : images.length > 0 then
    -- Concatenate the images side-by-side.
    let s := measureImages images 0 {}
    let image_type := if (images[0]).num_channels < 3 then CV_8UC1 else CV_8UC3
    let s := { s with actions := s.actions ++
      [StitchAction.GetNumChannels 0,
       StitchAction.CreateCanvas s.height s.width image_type] }
    let s := placeImages images 0 s
    { actions := s.actions ++ [StitchAction.DisplayImage window_name rescale]
      check_failure := none }
  else
    { actions := []
      check_failure := some "Provide at least one image to display." }

/-! ## Degradation operators and the image model -/

/-- A `MotionShift(dx, dy)`: a pair of pixel offsets. -/
structure MotionShift where
  dx : ℚ
  dy : ℚ
deriving DecidableEq, Repr

/-- A `MotionShiftSequence`: one shift per frame. -/
abbrev MotionShiftSequence := List MotionShift

/-- The four concrete `DegradationOperator` classes that `main` instantiates,
each with its constructor arguments. -/
inductive DegradationOperator where
  | MotionModule (motion_shift_sequence : MotionShiftSequence)
  | PsfBlurModule (blur_radius : Int) (sigma : ℚ)
  | DownsamplingModule (scale : Int)
  | AdditiveNoiseModule (sigma : ℚ)
deriving DecidableEq, Repr

/-- The virtual interface of `DegradationOperator` as declared for
`MotionModule` in motion_module.h:
`void ApplyToImage(ImageData* image_data, const int index) const` and
`void ApplyTransposeToImage(ImageData* image_data, const int index) const`.
Both change the image in place and leave the operator unchanged, so each is a
function from the image before to the image after. The method bodies are not
among the sources: they are arbitrary, the field of a semantics. -/
structure OperatorSemantics (Image : Type) where
  ApplyToImage : DegradationOperator → Image → Int → Image
  ApplyTransposeToImage : DegradationOperator → Image → Int → Image

/-- One call made on an operator: which method, on which operator, for which
frame index. -/
inductive OperatorCall where
  | forward (op : DegradationOperator) (index : Int)
  | transpose (op : DegradationOperator) (index : Int)
deriving DecidableEq, Repr

/-- The semantics that only records calls: the "image" is the list of calls made
on it so far. -/
def recordingSemantics : OperatorSemantics (List OperatorCall) where
  ApplyToImage op calls index := calls ++ [OperatorCall.forward op index]
  ApplyTransposeToImage op calls index :=
    calls ++ [OperatorCall.transpose op index]

/-- Modelled from the spec: the class `ImageModel` (`image_model/image_model.h`
is not among the sources). It owns "an ordered sequence of operator
instances". -/
structure ImageModel where
  degradation_operators : List DegradationOperator := []
deriving DecidableEq, Repr

namespace ImageModel

/-- Modelled from the spec: `ImageModel::AddDegradationOperator`, which is not
among the sources: "appends an operator to the end of the chain". -/
def AddDegradationOperator (model : ImageModel) (op : DegradationOperator) :
    ImageModel :=
  { degradation_operators := model.degradation_operators ++ [op] }

/-- Modelled from the spec: `ImageModel::ApplyToImage`, which is not among the
sources: "applies every operator in forward order to simulate a full
observation for frame `index`". -/
def ApplyToImage {Image : Type} (sem : OperatorSemantics Image)
    (model : ImageModel) (image : Image) (index : Int) : Image :=
  model.degradation_operators.foldl
    (fun image_data op => sem.ApplyToImage op image_data index) image

/-- Modelled from the spec: `ImageModel::ApplyTransposeToImage`, which is not
among the sources: "applies every operator's adjoint in reverse order". The
loop runs over the chain back to front. -/
def ApplyTransposeToImage {Image : Type} (sem : OperatorSemantics Image)
    (model : ImageModel) (image : Image) (index : Int) : Image :=
  model.degradation_operators.reverse.foldl
    (fun image_data op => sem.ApplyTransposeToImage op image_data index) image

end ImageModel

/-- The state built up by lines 48-73 of `main`: the operator objects in the
order their constructors ran, and the image model. -/
structure MainState where
  constructed : List DegradationOperator := []
  image_model : ImageModel := {}
deriving DecidableEq, Repr

/-- The motion estimates created in `main`. -/
def main_motion_shift_sequence : MotionShiftSequence :=
  [⟨10, 3⟩, ⟨-10, 15⟩, ⟨0, 0⟩, ⟨5, 10⟩, ⟨-8, -10⟩, ⟨3, -15⟩]

/-- Lines 58-73 of `main` in super_resolution.cpp: the four operators are
constructed (downsampling, motion, blur, noise, in this order) and then added to
a fresh image model (motion, blur, downsampling, noise, in this order). -/
def main_model_setup : MainState :=
  let state : MainState := {}
  -- Create the forward image model degradation components.
  let downsampling_module := DegradationOperator.DownsamplingModule 3
  let state := { state with constructed := state.constructed ++ [downsampling_module] }
  let motion_module := DegradationOperator.MotionModule main_motion_shift_sequence
  let state := { state with constructed := state.constructed ++ [motion_module] }
  let blur_module := DegradationOperator.PsfBlurModule 5 1
  let state := { state with constructed := state.constructed ++ [blur_module] }
  let noise_module := DegradationOperator.AdditiveNoiseModule 5
  let state := { state with constructed := state.constructed ++ [noise_module] }
  -- Create the forward image model: y = DBx + n
  let image_model : ImageModel := {}
  let image_model := image_model.AddDegradationOperator motion_module
  let image_model := image_model.AddDegradationOperator blur_module
  let image_model := image_model.AddDegradationOperator downsampling_module
  let image_model := image_model.AddDegradationOperator noise_module
  { state with image_model := image_model }

/-- The image model that `main` builds. -/
def main_image_model : ImageModel := main_model_setup.image_model

/-! ## Helper lemmas -/

/-- In an image of positive width, the offset `row * W + col` of an in-bounds
pixel inside its channel plane lies in `[0, W * H)`. -/
theorem plane_offset_bounds (W H row col : Int)
    (hrow0 : 0 ≤ row) (hrow : row < H) (hcol0 : 0 ≤ col) (hcol : col < W) :
    0 ≤ row * W + col ∧ row * W + col < W * H := by
  have hW : 0 < W := lt_of_le_of_lt hcol0 hcol
  constructor
  · have := mul_nonneg hrow0 hW.le
    linarith
  · have h1 : row + 1 ≤ H := hrow
    have h2 : (row + 1) * W ≤ H * W := mul_le_mul_of_nonneg_right h1 hW.le
    nlinarith

/-- Two numbers written as `q * n + r` with `0 ≤ r < n` agree only if both the
quotients and the remainders agree. -/
theorem mixed_radix_unique (n q1 r1 q2 r2 : Int)
    (h1 : 0 ≤ r1) (h1n : r1 < n) (h2 : 0 ≤ r2) (h2n : r2 < n)
    (h : q1 * n + r1 = q2 * n + r2) : q1 = q2 ∧ r1 = r2 := by
  have hq : q1 = q2 := by
    rcases lt_trichotomy q1 q2 with hlt | heq | hgt
    · exfalso
      have : (q1 + 1) * n ≤ q2 * n :=
        mul_le_mul_of_nonneg_right hlt (by linarith)
      nlinarith
    · exact heq
    · exfalso
      have : (q2 + 1) * n ≤ q1 * n :=
        mul_le_mul_of_nonneg_right hgt (by linarith)
      nlinarith
  subst hq
  exact ⟨rfl, by linarith⟩

/-- The unbounded arithmetic of `GetPixelIndex` is the arithmetic of 32-bit
`int`s on every buffer whose number of entries `C * H * W` fits an `int`: for
in-bounds coordinates the plane size, the channel offset, the row offset and
the index itself all lie in `[0, INT_MAX]`. -/
theorem GetPixelIndex_within_int (image_size : Size) (C channel row col : Int)
    (hc : 0 ≤ channel) (hcC : channel < C)
    (hr0 : 0 ≤ row) (hr : row < image_size.height)
    (hk0 : 0 ≤ col) (hk : col < image_size.width)
    (hfit : C * image_size.height * image_size.width ≤ INT_MAX) :
    (0 ≤ image_size.width * image_size.height
        ∧ image_size.width * image_size.height ≤ INT_MAX)
      ∧ (0 ≤ channel * (image_size.width * image_size.height)
        ∧ channel * (image_size.width * image_size.height) ≤ INT_MAX)
      ∧ (0 ≤ row * image_size.width ∧ row * image_size.width ≤ INT_MAX)
      ∧ (0 ≤ GetPixelIndex image_size channel row col
        ∧ GetPixelIndex image_size channel row col ≤ INT_MAX) := by
  obtain ⟨W, H⟩ := image_size
  simp only at hr hk hfit ⊢
  have hW : 0 < W := lt_of_le_of_lt hk0 hk
  have hH : 0 < H := lt_of_le_of_lt hr0 hr
  have hWH : 0 < W * H := mul_pos hW hH
  have hb := plane_offset_bounds W H row col hr0 hr hk0 hk
  have hcp : 0 ≤ channel * (W * H) := mul_nonneg hc hWH.le
  have hrw : 0 ≤ row * W := mul_nonneg hr0 hW.le
  have hC : (channel + 1) * (W * H) ≤ C * (W * H) :=
    mul_le_mul_of_nonneg_right hcC hWH.le
  have hCeq : C * H * W = C * (W * H) := by ring
  unfold GetPixelIndex
  simp only
  refine ⟨⟨hWH.le, ?_⟩, ⟨hcp, ?_⟩, ⟨hrw, ?_⟩, ⟨?_, ?_⟩⟩ <;> nlinarith

/-- Under the recording semantics a forward pass over `ops` appends one forward
call per operator, in list order. -/
theorem recorded_forward_calls (ops : List DegradationOperator)
    (calls : List OperatorCall) (index : Int) :
    ops.foldl (fun image_data op =>
        recordingSemantics.ApplyToImage op image_data index) calls
      = calls ++ ops.map (fun o => OperatorCall.forward o index) := by
  induction ops generalizing calls with
  | nil => simp
  | cons op rest ih =>
    rw [List.foldl_cons, ih]
    simp [recordingSemantics]

/-- Under the recording semantics a transpose pass over `ops` appends one
transpose call per operator, in list order. -/
theorem recorded_transpose_calls (ops : List DegradationOperator)
    (calls : List OperatorCall) (index : Int) :
    ops.foldl (fun image_data op =>
        recordingSemantics.ApplyTransposeToImage op image_data index) calls
      = calls ++ ops.map (fun o => OperatorCall.transpose o index) := by
  induction ops generalizing calls with
  | nil => simp
  | cons op rest ih =>
    rw [List.foldl_cons, ih]
    simp [recordingSemantics]

/-- The measuring loop only appends to the calls made so far. -/
theorem measureImages_actions (images : List ImageData) (position : Nat)
    (s : StitchState) :
    ∃ more, (measureImages images position s).actions = s.actions ++ more := by
  induction images generalizing position s with
  | nil => exact ⟨[], by simp [measureImages]⟩
  | cons image rest ih =>
    obtain ⟨more, hmore⟩ := ih (position + 1)
      { s with
        width := s.width + image.image_size.width
        height := max s.height image.image_size.height
        actions := s.actions ++ [StitchAction.GetImageSize position] }
    exact ⟨StitchAction.GetImageSize position :: more, by
      simp [measureImages, hmore]⟩

/-- The placing loop only appends to the calls made so far. -/
theorem placeImages_actions (images : List ImageData) (position : Nat)
    (s : StitchState) :
    ∃ more, (placeImages images position s).actions = s.actions ++ more := by
  induction images generalizing position s with
  | nil => exact ⟨[], by simp [placeImages]⟩
  | cons image rest ih =>
    obtain ⟨more, hmore⟩ := ih (position + 1)
      { s with
        x_pos := s.x_pos + image.image_size.width
        actions := s.actions ++
          [StitchAction.GetImageSize position,
           StitchAction.CopyTo position
             ⟨s.x_pos, 0, image.image_size.width, image.image_size.height⟩] }
    exact ⟨_, by simp [placeImages, hmore]; rfl⟩

/-- The measuring loop keeps a non-empty call list non-empty. -/
theorem measureImages_actions_ne_nil (images : List ImageData) (position : Nat)
    (s : StitchState) (h : s.actions ≠ []) :
    (measureImages images position s).actions ≠ [] := by
  obtain ⟨more, hmore⟩ := measureImages_actions images position s
  rw [hmore]
  simp [h]

/-- The measuring loop keeps the first call of a non-empty call list. -/
theorem measureImages_actions_head? (images : List ImageData) (position : Nat)
    (s : StitchState) (h : s.actions ≠ []) :
    (measureImages images position s).actions.head? = s.actions.head? := by
  obtain ⟨more, hmore⟩ := measureImages_actions images position s
  rw [hmore, List.head?_append_of_ne_nil _ h]

/-- The placing loop keeps a non-empty call list non-empty. -/
theorem placeImages_actions_ne_nil (images : List ImageData) (position : Nat)
    (s : StitchState) (h : s.actions ≠ []) :
    (placeImages images position s).actions ≠ [] := by
  obtain ⟨more, hmore⟩ := placeImages_actions images position s
  rw [hmore]
  simp [h]

/-- The placing loop keeps the first call of a non-empty call list. -/
theorem placeImages_actions_head? (images : List ImageData) (position : Nat)
    (s : StitchState) (h : s.actions ≠ []) :
    (placeImages images position s).actions.head? = s.actions.head? := by
  obtain ⟨more, hmore⟩ := placeImages_actions images position s
  rw [hmore, List.head?_append_of_ne_nil _ h]

/-! ## Properties -/

/-- C3: `GetPixelIndex` addresses a flat pixel array in channel-row-col order.
For an image of width `W > 0` and height `H > 0` and in-bounds coordinates
(`channel ≥ 0`, `0 ≤ row < H`, `0 ≤ col < W`) the index is
`channel*H*W + row*W + col`; two distinct in-bounds triples never receive the
same index; and if `channel < C` the index lies in `[0, C*H*W)`. -/
theorem GetPixelIndex_channel_row_col
    (image_size : Size) (C channel row col channel2 row2 col2 : Int)
    (hW : 0 < image_size.width) (hH : 0 < image_size.height)
    (hc : 0 ≤ channel)
    (hr0 : 0 ≤ row) (hr : row < image_size.height)
    (hk0 : 0 ≤ col) (hk : col < image_size.width)
    (_hc2 : 0 ≤ channel2)
    (hr20 : 0 ≤ row2) (hr2 : row2 < image_size.height)
    (hk20 : 0 ≤ col2) (hk2 : col2 < image_size.width) :
    GetPixelIndex image_size channel row col
        = channel * image_size.height * image_size.width
          + row * image_size.width + col
      ∧ ((channel, row, col) ≠ (channel2, row2, col2) →
          GetPixelIndex image_size channel row col
            ≠ GetPixelIndex image_size channel2 row2 col2)
      ∧ (channel < C →
          0 ≤ GetPixelIndex image_size channel row col
          ∧ GetPixelIndex image_size channel row col
              < C * image_size.height * image_size.width) := by
  obtain ⟨W, H⟩ := image_size
  simp only at hW hH hr hk hr2 hk2 ⊢
  have hb1 := plane_offset_bounds W H row col hr0 hr hk0 hk
  have hb2 := plane_offset_bounds W H row2 col2 hr20 hr2 hk20 hk2
  have hWH : 0 < W * H := mul_pos hW hH
  refine ⟨?_, ?_, ?_⟩
  · unfold GetPixelIndex
    ring
  · intro hne heq
    apply hne
    unfold GetPixelIndex at heq
    simp only at heq
    have hplane := mixed_radix_unique (W * H) channel (row * W + col)
      channel2 (row2 * W + col2) hb1.1 hb1.2 hb2.1 hb2.2 (by linarith)
    have hrow := mixed_radix_unique W row col row2 col2 hk0 hk hk20 hk2 hplane.2
    rw [hplane.1, hrow.1, hrow.2]
  · intro hlt
    unfold GetPixelIndex
    simp only
    have hcp : 0 ≤ channel * (W * H) := mul_nonneg hc hWH.le
    have hC : (channel + 1) * (W * H) ≤ C * (W * H) :=
      mul_le_mul_of_nonneg_right hlt hWH.le
    constructor
    · linarith [hb1.1]
    · nlinarith [hb1.2]

/-- C3, at a 3-channel image of width 4 and height 3: the pixels
`(1, 2, 3)` and `(2, 0, 1)`. -/
theorem GetPixelIndex_channel_row_col_witness :
    GetPixelIndex ⟨4, 3⟩ 1 2 3 = 1 * 3 * 4 + 2 * 4 + 3
      ∧ (((1 : Int), (2 : Int), (3 : Int)) ≠ (2, 0, 1) →
          GetPixelIndex ⟨4, 3⟩ 1 2 3 ≠ GetPixelIndex ⟨4, 3⟩ 2 0 1)
      ∧ ((1 : Int) < 3 →
          0 ≤ GetPixelIndex ⟨4, 3⟩ 1 2 3
          ∧ GetPixelIndex ⟨4, 3⟩ 1 2 3 < 3 * 3 * 4) :=
  GetPixelIndex_channel_row_col ⟨4, 3⟩ 3 1 2 3 2 0 1
    (by decide) (by decide) (by decide) (by decide) (by decide) (by decide)
    (by decide) (by decide) (by decide) (by decide) (by decide) (by decide)

/-- C1: the image model built in `main` has its operators in the forward order
motion, blur, downsampling, noise. The chain after the four
`AddDegradationOperator` calls is exactly
`[MotionModule, PsfBlurModule, DownsamplingModule, AdditiveNoiseModule]`, although
the objects were constructed in the order downsampling, motion, blur, noise; four
operators added to a fresh model always form the chain in the order of the
calls; and under every semantics of the operators the forward model of `main` is
`y = N(D(B(M(x))))`. -/
theorem main_image_model_forward_order :
    main_image_model.degradation_operators
        = [DegradationOperator.MotionModule main_motion_shift_sequence,
           DegradationOperator.PsfBlurModule 5 1,
           DegradationOperator.DownsamplingModule 3,
           DegradationOperator.AdditiveNoiseModule 5]
      ∧ main_model_setup.constructed
          = [DegradationOperator.DownsamplingModule 3,
             DegradationOperator.MotionModule main_motion_shift_sequence,
             DegradationOperator.PsfBlurModule 5 1,
             DegradationOperator.AdditiveNoiseModule 5]
      ∧ (∀ a b c d : DegradationOperator,
          (((((({} : ImageModel).AddDegradationOperator a).AddDegradationOperator
            b).AddDegradationOperator c).AddDegradationOperator
            d).degradation_operators) = [a, b, c, d])
      ∧ (∀ (Image : Type) (sem : OperatorSemantics Image) (x : Image) (index : Int),
          main_image_model.ApplyToImage sem x index
            = sem.ApplyToImage (DegradationOperator.AdditiveNoiseModule 5)
                (sem.ApplyToImage (DegradationOperator.DownsamplingModule 3)
                  (sem.ApplyToImage (DegradationOperator.PsfBlurModule 5 1)
                    (sem.ApplyToImage
                      (DegradationOperator.MotionModule main_motion_shift_sequence)
                      x index) index) index) index) := by
  refine ⟨rfl, rfl, ?_, ?_⟩
  · intro a b c d
    rfl
  · intro Image sem x index
    rfl

/-- C2: `ImageModel::ApplyTransposeToImage` applies the adjoints in exact reverse
order of the chain, `ImageModel::ApplyToImage` applies the operators in the
order they were added. For every semantics of the operators, every model, image
and frame index: on the empty chain both return the image; after adding an
operator `op`, the transpose first applies the adjoint of `op` and then the
transpose of the earlier chain, while the forward pass applies `op` last; the
adjoint of the first operator of a chain is applied last; the recorded call
orders are the chain and the reversed chain; and for the chain built in `main`
the transpose order is noise, downsampling, blur, motion. -/
theorem ApplyTransposeToImage_reverse_order (Image : Type)
    (sem : OperatorSemantics Image) (model : ImageModel)
    (op : DegradationOperator) (rest : List DegradationOperator)
    (x : Image) (index : Int) :
    ImageModel.ApplyTransposeToImage sem {} x index = x
      ∧ ImageModel.ApplyToImage sem {} x index = x
      ∧ (model.AddDegradationOperator op).ApplyTransposeToImage sem x index
          = model.ApplyTransposeToImage sem
              (sem.ApplyTransposeToImage op x index) index
      ∧ (model.AddDegradationOperator op).ApplyToImage sem x index
          = sem.ApplyToImage op (model.ApplyToImage sem x index) index
      ∧ ImageModel.ApplyTransposeToImage sem ⟨op :: rest⟩ x index
          = sem.ApplyTransposeToImage op
              (ImageModel.ApplyTransposeToImage sem ⟨rest⟩ x index) index
      ∧ ImageModel.ApplyToImage sem ⟨op :: rest⟩ x index
          = ImageModel.ApplyToImage sem ⟨rest⟩ (sem.ApplyToImage op x index) index
      ∧ model.ApplyTransposeToImage recordingSemantics [] index
          = model.degradation_operators.reverse.map
              (fun o => OperatorCall.transpose o index)
      ∧ model.ApplyToImage recordingSemantics [] index
          = model.degradation_operators.map
              (fun o => OperatorCall.forward o index)
      ∧ main_image_model.ApplyTransposeToImage sem x index
          = sem.ApplyTransposeToImage
              (DegradationOperator.MotionModule main_motion_shift_sequence)
              (sem.ApplyTransposeToImage (DegradationOperator.PsfBlurModule 5 1)
                (sem.ApplyTransposeToImage (DegradationOperator.DownsamplingModule 3)
                  (sem.ApplyTransposeToImage
                    (DegradationOperator.AdditiveNoiseModule 5) x index)
                  index) index) index := by
  refine ⟨rfl, rfl, ?_, ?_, ?_, rfl, ?_, ?_, rfl⟩
  · simp [ImageModel.ApplyTransposeToImage, ImageModel.AddDegradationOperator]
  · simp [ImageModel.ApplyToImage, ImageModel.AddDegradationOperator]
  · simp [ImageModel.ApplyTransposeToImage]
  · exact recorded_transpose_calls model.degradation_operators.reverse [] index
  · exact recorded_forward_calls model.degradation_operators [] index

/-- C4: `DisplayImagesSideBySide` requires at least one image. On the empty list
the run ends at the initial check with the message "Provide at least one image
to display.", having made no other call (no image read, no canvas allocated);
on every non-empty list the check passes and the run goes on to read the first
image. -/
theorem DisplayImagesSideBySide_requires_an_image
    (window_name : String) (rescale : Bool)
    (first : ImageData) (rest : List ImageData) :
    DisplayImagesSideBySide [] window_name rescale
        = { actions := []
            check_failure := some "Provide at least one image to display." }
      ∧ (DisplayImagesSideBySide (first :: rest) window_name rescale).check_failure
          = none
      ∧ (DisplayImagesSideBySide (first :: rest) window_name rescale).actions.head?
          = some (StitchAction.GetImageSize 0) := by
  refine ⟨rfl, ?_, ?_⟩
  · simp [DisplayImagesSideBySide]
  simp only [DisplayImagesSideBySide, List.length_cons, gt_iff_lt,
    Nat.zero_lt_succ, ↓reduceDIte, measureImages]
  rw [List.head?_append_of_ne_nil]
  · rw [placeImages_actions_head?]
    · rw [List.head?_append_of_ne_nil]
      · rw [measureImages_actions_head?]
        · rfl
        · simp
      · exact measureImages_actions_ne_nil _ _ _ (by simp)
    · simp
  · exact placeImages_actions_ne_nil _ _ _ (by simp)

/-- C5, as stated, fails: press the left button at `(10, 20)` in the initial
status (dragging starts), then release it at `(30, 40)` with a `flags` value
whose `CV_EVENT_FLAG_LBUTTON` bit is clear. The status before the release has
`dragging = true`, yet the callback cancels the drag and shows the original
image: `is_zoomed_in` is still `false` afterwards. -/
theorem DisplayWindowMouseCallback_release_flag_clear :
    (DisplayWindowMouseCallback CV_EVENT_LBUTTONDOWN 10 20 CV_EVENT_FLAG_LBUTTON
        {}).1 = { drag_start_x := 10, drag_start_y := 20, dragging := true,
                  is_zoomed_in := false }
      ∧ DisplayWindowMouseCallback CV_EVENT_LBUTTONUP 30 40 0
          { drag_start_x := 10, drag_start_y := 20, dragging := true,
            is_zoomed_in := false }
        = ({ drag_start_x := 10, drag_start_y := 20, dragging := false,
             is_zoomed_in := false }, [WindowAction.show_original]) := by
  constructor <;> decide

/-- C5, amended: for every status with `dragging = true` and every
left-button-up event, at any position, the status after the callback has
`dragging = false`. If the `CV_EVENT_FLAG_LBUTTON` bit of `flags` is set, the
zoom is performed: `is_zoomed_in = true` and the cropped selection is shown.
If the bit is clear, the drag is cancelled instead: the original image is shown
and `is_zoomed_in` keeps its value. -/
theorem DisplayWindowMouseCallback_release_while_dragging
    (status : WindowInteractionStatus) (x_pos y_pos flags : Int)
    (hdrag : status.dragging = true) :
    (DisplayWindowMouseCallback CV_EVENT_LBUTTONUP x_pos y_pos flags
        status).1.dragging = false
      ∧ (Int.land flags CV_EVENT_FLAG_LBUTTON ≠ 0 →
          (DisplayWindowMouseCallback CV_EVENT_LBUTTONUP x_pos y_pos flags
              status).1.is_zoomed_in = true
          ∧ (DisplayWindowMouseCallback CV_EVENT_LBUTTONUP x_pos y_pos flags
              status).2
            = [WindowAction.show_zoomed
                ⟨min x_pos status.drag_start_x, min y_pos status.drag_start_y,
                  |x_pos - status.drag_start_x|, |y_pos - status.drag_start_y|⟩
                (GetResizeScale
                  ⟨|x_pos - status.drag_start_x|, |y_pos - status.drag_start_y|⟩)])
      ∧ (Int.land flags CV_EVENT_FLAG_LBUTTON = 0 →
          (DisplayWindowMouseCallback CV_EVENT_LBUTTONUP x_pos y_pos flags
              status).1.is_zoomed_in = status.is_zoomed_in
          ∧ (DisplayWindowMouseCallback CV_EVENT_LBUTTONUP x_pos y_pos flags
              status).2 = [WindowAction.show_original]) := by
  have hR : ¬ (CV_EVENT_LBUTTONUP = CV_EVENT_RBUTTONDOWN) := by decide
  have hL : ¬ (CV_EVENT_LBUTTONUP = CV_EVENT_LBUTTONDOWN) := by decide
  by_cases hflag : Int.land flags CV_EVENT_FLAG_LBUTTON = 0
  · simp [DisplayWindowMouseCallback, hR, hL, hdrag, hflag]
  · simp [DisplayWindowMouseCallback, hR, hL, hdrag, hflag]

/-- C5, amended, on a drag started at `(10, 20)` and released at `(30, 5)` with
the left-button flag set. -/
theorem DisplayWindowMouseCallback_release_while_dragging_witness :
    (DisplayWindowMouseCallback CV_EVENT_LBUTTONUP 30 5 1
        { drag_start_x := 10, drag_start_y := 20, dragging := true,
          is_zoomed_in := false }).1.dragging = false
      ∧ (Int.land 1 CV_EVENT_FLAG_LBUTTON ≠ 0 →
          (DisplayWindowMouseCallback CV_EVENT_LBUTTONUP 30 5 1
              { drag_start_x := 10, drag_start_y := 20, dragging := true,
                is_zoomed_in := false }).1.is_zoomed_in = true
          ∧ (DisplayWindowMouseCallback CV_EVENT_LBUTTONUP 30 5 1
              { drag_start_x := 10, drag_start_y := 20, dragging := true,
                is_zoomed_in := false }).2
            = [WindowAction.show_zoomed
                ⟨min 30 10, min 5 20, |30 - 10|, |5 - 20|⟩
                (GetResizeScale ⟨|30 - 10|, |5 - 20|⟩)])
      ∧ (Int.land 1 CV_EVENT_FLAG_LBUTTON = 0 →
          (DisplayWindowMouseCallback CV_EVENT_LBUTTONUP 30 5 1
              { drag_start_x := 10, drag_start_y := 20, dragging := true,
                is_zoomed_in := false }).1.is_zoomed_in = false
          ∧ (DisplayWindowMouseCallback CV_EVENT_LBUTTONUP 30 5 1
              { drag_start_x := 10, drag_start_y := 20, dragging := true,
                is_zoomed_in := false }).2 = [WindowAction.show_original]) :=
  DisplayWindowMouseCallback_release_while_dragging
    { drag_start_x := 10, drag_start_y := 20, dragging := true,
      is_zoomed_in := false } 30 5 1 rfl

/-- C6: for an image with positive width and height, the scale returned by
`GetResizeScale` is `min (1250/width) (850/height)`; the image resized by it
fits the display (`width*scale ≤ 1250`, `height*scale ≤ 850`), one of the two
bounds is attained, and every scale `t` that fits is at most the returned
one. -/
theorem GetResizeScale_fits_display (image_size : Size) (t : ℚ)
    (hW : 0 < image_size.width) (hH : 0 < image_size.height) :
    GetResizeScale image_size
        = min ((1250 : ℚ) / image_size.width) ((850 : ℚ) / image_size.height)
      ∧ (image_size.width : ℚ) * GetResizeScale image_size ≤ 1250
      ∧ (image_size.height : ℚ) * GetResizeScale image_size ≤ 850
      ∧ ((image_size.width : ℚ) * GetResizeScale image_size = 1250
          ∨ (image_size.height : ℚ) * GetResizeScale image_size = 850)
      ∧ ((image_size.width : ℚ) * t ≤ 1250 → (image_size.height : ℚ) * t ≤ 850 →
          t ≤ GetResizeScale image_size) := by
  obtain ⟨W, H⟩ := image_size
  simp only at hW hH ⊢
  have hWq : (0 : ℚ) < (W : ℚ) := by exact_mod_cast hW
  have hHq : (0 : ℚ) < (H : ℚ) := by exact_mod_cast hH
  have hdef : GetResizeScale ⟨W, H⟩ = min ((1250 : ℚ) / W) ((850 : ℚ) / H) := by
    simp [GetResizeScale, kDisplayWidthPixels, kDisplayHeightPixels]
  have hx : (W : ℚ) * ((1250 : ℚ) / W) = 1250 := by field_simp
  have hy : (H : ℚ) * ((850 : ℚ) / H) = 850 := by field_simp
  rw [hdef]
  refine ⟨rfl, ?_, ?_, ?_, ?_⟩
  · calc (W : ℚ) * min ((1250 : ℚ) / W) ((850 : ℚ) / H)
        ≤ (W : ℚ) * ((1250 : ℚ) / W) :=
          mul_le_mul_of_nonneg_left (min_le_left _ _) hWq.le
      _ = 1250 := hx
  · calc (H : ℚ) * min ((1250 : ℚ) / W) ((850 : ℚ) / H)
        ≤ (H : ℚ) * ((850 : ℚ) / H) :=
          mul_le_mul_of_nonneg_left (min_le_right _ _) hHq.le
      _ = 850 := hy
  · rcases le_total ((1250 : ℚ) / W) ((850 : ℚ) / H) with hle | hle
    · left
      rw [min_eq_left hle]
      exact hx
    · right
      rw [min_eq_right hle]
      exact hy
  · intro htW htH
    apply le_min
    · rw [le_div_iff₀ hWq]
      linarith
    · rw [le_div_iff₀ hHq]
      linarith

/-- C6, at a 2500 x 850 image and the candidate scale `1/2`. -/
theorem GetResizeScale_fits_display_witness :
    GetResizeScale ⟨2500, 850⟩
        = min ((1250 : ℚ) / (2500 : Int)) ((850 : ℚ) / (850 : Int))
      ∧ ((2500 : Int) : ℚ) * GetResizeScale ⟨2500, 850⟩ ≤ 1250
      ∧ ((850 : Int) : ℚ) * GetResizeScale ⟨2500, 850⟩ ≤ 850
      ∧ (((2500 : Int) : ℚ) * GetResizeScale ⟨2500, 850⟩ = 1250
          ∨ ((850 : Int) : ℚ) * GetResizeScale ⟨2500, 850⟩ = 850)
      ∧ (((2500 : Int) : ℚ) * (1 / 2) ≤ 1250 → ((850 : Int) : ℚ) * (1 / 2) ≤ 850 →
          (1 / 2 : ℚ) ≤ GetResizeScale ⟨2500, 850⟩) :=
  GetResizeScale_fits_display ⟨2500, 850⟩ (1 / 2) (by decide) (by decide)

end SuperResolution
